import Mathlib

/-!
Verification development for the parseal parsing engine.

The engine under study is a character-level parser-combinator library:
a cursor over immutable input text (`CharStream`), positions and spans,
a failure type (`ParseError`), primitive leaf parsers (`Number`,
`Identifier`, `StringValue`, fixed literal tokens) and combinators
(`Group`, `ListP`, open-arity repetition on lists, `Indent` blocks,
tuple sequencing).

`src/src/parsing.rs` declares `pub mod charstream`, but `charstream.rs`
itself is not part of the sources available here, so the cursor, the
position/span values and the whitespace modes are modelled from the
specification (each such definition's doc comment says so).  Everything
else is translated directly from `src/src/parsing.rs` and
`src/src/parsing/tokens.rs`.

Rust's `fn parse(value: &mut CharStream) -> Result<Self, ParseError>`
is embedded in state-passing style as
`CharStream → Except ParseError α × CharStream`; the returned stream is
the state of the `&mut` argument when the function returns, on failure
as well as on success.  Loops of unbounded arity (`Vec`, `List`,
`Indent`) are embedded with an explicit fuel argument; `none` means the
fuel ran out before the source loop exited.
-/

/-- Modelled from the spec: `Position` (charstream.rs is missing from src);
`{row, column, offset}`, updated on every consumed character. -/
structure Position where
  row : Nat
  column : Nat
  offset : Nat
deriving DecidableEq

/-- Modelled from the spec: `Span` is a pair of `Position`s; the source
field names are `start` and `end`; `end` is a Lean keyword, so the second
field is called `stop` here. -/
structure Span where
  start : Position
  stop : Position
deriving DecidableEq

/-- Modelled from the spec: the whitespace-handling modes of the cursor
(`SkipAll`, `KeepAll`, and the indentation-tracking mode, called
`WhitespaceType::Indent` at its use sites in parsing.rs). -/
inductive WhitespaceType where
  | SkipAll
  | KeepAll
  | Indent
deriving DecidableEq

/-- Modelled from the spec: the cursor.  It owns the full immutable input,
a current `Position` (whose `offset` indexes into the input), and a
whitespace mode.  Structural copies are independent; Lean values give
that for free. -/
structure CharStream where
  input : List Char
  pos : Position
  whitespace : WhitespaceType
deriving DecidableEq

/-- Modelled from the spec: advancing over one character updates the
row/column bookkeeping (a newline increments the row and resets the
column) and the offset. -/
def posAdvance (p : Position) (c : Char) : Position :=
  if c = '\n' then ⟨p.row + 1, 0, p.offset + 1⟩ else ⟨p.row, p.column + 1, p.offset + 1⟩

/-- Remaining input of the cursor: the suffix of the input starting at
the current offset. -/
def CharStream.rem (cs : CharStream) : List Char :=
  cs.input.drop cs.pos.offset

/-- Position reached after skipping leading whitespace of `l`, starting
from position `p`. -/
def skipWsPos : List Char → Position → Position
  | [], p => p
  | c :: rest, p => if c.isWhitespace then skipWsPos rest (posAdvance p c) else p

/-- Modelled from the spec: move the cursor past leading whitespace. -/
def CharStream.skipWs (cs : CharStream) : CharStream :=
  { cs with pos := skipWsPos cs.rem cs.pos }

/-- Modelled from the spec: consume one raw character (no whitespace
handling), or `none` at end of input. -/
def CharStream.rawNext (cs : CharStream) : Option Char × CharStream :=
  match cs.rem with
  | [] => (none, cs)
  | c :: _ => (some c, { cs with pos := posAdvance cs.pos c })

/-- Modelled from the spec: `next()` honours the whitespace mode.
In `KeepAll` mode it returns the next character verbatim; in `SkipAll`
and in the indentation mode it skips whitespace before returning a
character (in the indentation mode the skipped leading-line whitespace
remains observable through `CharStream.indent`, which is derived from
the input and the offset below). -/
def CharStream.next (cs : CharStream) : Option Char × CharStream :=
  match cs.whitespace with
  | .KeepAll => cs.rawNext
  | _ => cs.skipWs.rawNext

/-- Translation of `pub struct ParseError(String, Position)` from
src/src/parsing.rs: the engine's single failure kind, a message together
with a position. -/
structure ParseError where
  cause : String
  position : Position
deriving DecidableEq

/-- Translation of `ParseError::new` from src/src/parsing.rs. -/
def ParseError.new (cause : String) (p : Position) : ParseError :=
  ⟨cause, p⟩

/-- Modelled from the spec: `ParseError::not_found` is called throughout
src/src/parsing/tokens.rs but defined nowhere under src.  The spec says
failures carry a message and a position, but every call site passes only
a message, so the model fills in the zero position. -/
def ParseError.not_found (cause : String) : ParseError :=
  ⟨cause, ⟨0, 0, 0⟩⟩

/-- Modelled from the spec: `set_whitespace` changes the cursor's mode. -/
def CharStream.setWhitespace (cs : CharStream) (w : WhitespaceType) : CharStream :=
  { cs with whitespace := w }

/-- Modelled from the spec: `goto` moves the cursor to a position that
corresponds to scanned input (it is used by the primitives to commit a
speculative clone's position into the caller's cursor). -/
def CharStream.goto (cs : CharStream) (p : Position) : Except ParseError CharStream :=
  if p.offset ≤ cs.input.length then .ok { cs with pos := p }
  else .error (.new "invalid position" p)

/-- Offset of the first character of the line containing offset `off`. -/
def lineStart (input : List Char) (off : Nat) : Nat :=
  off - ((input.take off).reverse.takeWhile (fun c => c != '\n')).length

/-- Modelled from the spec: `indent()` returns the measured indentation
depth of the current line: the number of leading whitespace characters
(newlines excluded) of the line the cursor is on. -/
def CharStream.indent (cs : CharStream) : Nat :=
  ((cs.input.drop (lineStart cs.input cs.pos.offset)).takeWhile
    (fun c => c.isWhitespace && c != '\n')).length

/-- Fresh cursor over a string, in the default `SkipAll` mode, at the
zero position (modelled from the spec's description of building a
`CharStream` from a buffer). -/
def mkStream (s : String) : CharStream :=
  ⟨s.toList, ⟨0, 0, 0⟩, .SkipAll⟩

/-- Result of one embedded `parse` call: the outcome together with the
final state of the `&mut CharStream` argument. -/
abbrev PResult (α : Type) := Except ParseError α × CharStream

/-- Scanning loop shared by `Number`, `Identifier` and `StringValue`:
consume characters while they satisfy `f`, returning the consumed
characters and the position just after the last accepted character
(the position argument if none is accepted).  This mirrors the source
loops, which update their committed `position` only after accepting a
character. -/
def scanWhile (f : Char → Bool) : List Char → Position → List Char × Position
  | [], p => ([], p)
  | c :: rest, p =>
    if f c then
      let r := scanWhile f rest (posAdvance p c)
      (c :: r.1, r.2)
    else ([], p)

/-- Translation of `pub struct Number` from src/src/parsing.rs. -/
structure Number where
  value : String
  span : Span
deriving DecidableEq

/-- Translation of `impl Parse for Number` (src/src/parsing.rs lines
324-355): record the start position, clone the cursor, require a first
numeric character, switch the clone to `KeepAll`, consume further
numeric characters, then commit the caller's cursor with `goto`. -/
def Number.parse (value : CharStream) : PResult Number :=
  let start := value.pos
  match value.next with
  | (some chr, nv) =>
    if chr.isDigit then
      let nv2 := nv.setWhitespace .KeepAll
      let scanned := scanWhile Char.isDigit nv2.rem nv.pos
      match value.goto scanned.2 with
      | .ok v2 => (.ok ⟨String.mk (chr :: scanned.1), ⟨start, v2.pos⟩⟩, v2)
      | .error e => (.error e, value)
    else (.error (.new "Did not find number" nv.pos), value)
  | (none, nv) => (.error (.new "Did not find number" nv.pos), value)

/-- Translation of `pub struct Identifier` from src/src/parsing.rs. -/
structure Identifier where
  identifier : String
  span : Span
deriving DecidableEq

/-- Translation of `impl Parse for Identifier` (src/src/parsing.rs lines
257-288): same shape as `Number.parse` with an alphabetic first
character and alphanumeric continuation. -/
def Identifier.parse (value : CharStream) : PResult Identifier :=
  let start := value.pos
  match value.next with
  | (some chr, nv) =>
    if chr.isAlpha then
      let nv2 := nv.setWhitespace .KeepAll
      let scanned := scanWhile Char.isAlphanum nv2.rem nv.pos
      match value.goto scanned.2 with
      | .ok v2 => (.ok ⟨String.mk (chr :: scanned.1), ⟨start, v2.pos⟩⟩, v2)
      | .error e => (.error e, value)
    else (.error (.new "Did not find identifier" nv.pos), value)
  | (none, nv) => (.error (.new "Did not find identifier" nv.pos), value)

deriving instance DecidableEq for Except

/-- Matching loop of the `create_tokens!` macro (src/src/parsing/tokens.rs
lines 28-35): while fewer than `len` characters have been matched, read
the next character; whitespace is skipped (the loop `continue`s), end of
input breaks, any other character is accumulated. -/
def tokenLoop (len : Nat) : List Char → List Char → Position → List Char × Position
  | mtch, [], p => (mtch, p)
  | mtch, c :: rest, p =>
    if len ≤ mtch.length then (mtch, p)
    else if c.isWhitespace then tokenLoop len mtch rest (posAdvance p c)
    else tokenLoop len (mtch.concat c) rest (posAdvance p c)

/-- Translation of the `Parse::parse` generated by `create_tokens!`
(src/src/parsing/tokens.rs lines 23-43): run the matching loop, succeed
when the accumulated characters equal the literal, otherwise fail with
`ParseError::not_found` and the macro's message.  The source function
reads the raw character iterator, so the consumed characters stay
consumed on failure too. -/
def tokenParse (lit : List Char) (msg : String) (value : CharStream) : PResult Unit :=
  let r := tokenLoop lit.length [] value.rem value.pos
  let value2 : CharStream := { value with pos := r.2 }
  if r.1 = lit then (.ok (), value2) else (.error (.not_found msg), value2)

/-- Matching loop of the `create_delimiters!` macro's one-character
tokens (src/src/parsing/tokens.rs lines 59-65 and 77-83): return the
first non-whitespace character's match outcome; the mismatching
character is consumed before the loop breaks. -/
def delimLoop (chr : Char) : List Char → Position → Bool × Position
  | [], p => (false, p)
  | c :: rest, p =>
    if c = chr then (true, posAdvance p c)
    else if c.isWhitespace then delimLoop chr rest (posAdvance p c)
    else (false, posAdvance p c)

/-- Helper assembling a delimiter-side token parse from its character
and its `create_delimiters!` failure message. -/
def delimTokenParse (chr : Char) (msg : String) (value : CharStream) : PResult Unit :=
  let r := delimLoop chr value.rem value.pos
  let value2 : CharStream := { value with pos := r.2 }
  if r.1 then (.ok (), value2) else (.error (.not_found msg), value2)

/-- Translation of `Comma`'s generated parse (`create_tokens! { , Comma, ... }`). -/
def Comma.parse (value : CharStream) : PResult Unit :=
  tokenParse [','] "Could not find token ','." value

/-- Translation of `EqualEqual`'s generated parse
(`create_tokens! { ... == EqualEqual ... }`). -/
def EqualEqual.parse (value : CharStream) : PResult Unit :=
  tokenParse ['=', '='] "Could not find token '=='." value

/-- Translation of `LeftQuote`'s generated parse
(`create_delimiters! { "" LeftQuote RightQuote Quote }`, left side). -/
def LeftQuote.parse (value : CharStream) : PResult Unit :=
  delimTokenParse '\"' "could not find left side of: '\"\"'." value

/-- Translation of `RightQuote`'s generated parse
(`create_delimiters! { "" LeftQuote RightQuote Quote }`, right side). -/
def RightQuote.parse (value : CharStream) : PResult Unit :=
  delimTokenParse '\"' "could not parse right side of: '\"\"'." value

/-- Translation of `LeftParen`'s generated parse. -/
def LeftParen.parse (value : CharStream) : PResult Unit :=
  delimTokenParse '(' "could not find left side of: '()'." value

/-- Translation of `RightParen`'s generated parse. -/
def RightParen.parse (value : CharStream) : PResult Unit :=
  delimTokenParse ')' "could not parse right side of: '()'." value

/-- Translation of `pub struct StringValue` from src/src/parsing.rs.
The source also stores the `tokens::Quote` delimiter value; the
generated quote tokens are zero-size and carry no data, so only the
inner text is kept here. -/
structure StringValue where
  value : String
deriving DecidableEq

/-- Translation of `impl Parse for StringValue` (src/src/parsing.rs
lines 187-212): parse the opening quote, clone the cursor into `KeepAll`
mode, consume characters verbatim until a quote or end of input, commit
the caller's cursor with `goto`, then parse the closing quote. -/
def StringValue.parse (value : CharStream) : PResult StringValue :=
  match LeftQuote.parse value with
  | (.error e, v1) => (.error e, v1)
  | (.ok _, v1) =>
    let sv := v1.setWhitespace .KeepAll
    let scanned := scanWhile (fun c => c != '\"') sv.rem v1.pos
    match v1.goto scanned.2 with
    | .error e => (.error e, v1)
    | .ok v2 =>
      match RightQuote.parse v2 with
      | (.error e, v3) => (.error e, v3)
      | (.ok _, v3) => (.ok ⟨String.mk scanned.1⟩, v3)

/-- Translation of `pub struct Group` from src/src/parsing.rs (named
`GroupP` because `Group` is taken by Mathlib): the delimiter value
(built by `D::new(start, end)`) and the inner item. -/
structure GroupP (δ ι : Type) where
  delimiter : δ
  item : ι
deriving DecidableEq

/-- Translation of `impl Parse for Group` (src/src/parsing.rs lines
58-69), parameterised by the component parse functions and by the
delimiter constructor `D::new`: parse Start, then the item, then End,
propagating each failure as returned. -/
def groupParse (mkDelim : σ → ε → δ) (pStart : CharStream → PResult σ)
    (pItem : CharStream → PResult ι) (pEnd : CharStream → PResult ε)
    (value : CharStream) : PResult (GroupP δ ι) :=
  match pStart value with
  | (.error e, v1) => (.error e, v1)
  | (.ok s, v1) =>
    match pItem v1 with
    | (.error e, v2) => (.error e, v2)
    | (.ok i, v2) =>
      match pEnd v2 with
      | (.error e, v3) => (.error e, v3)
      | (.ok en, v3) => (.ok ⟨mkDelim s en, i⟩, v3)

/-- Translation of `impl Parse for (A, B)` (src/src/parsing.rs lines
458-463): sequence the two component parses, short-circuiting on the
first failure. -/
def tuple2Parse (pA : CharStream → PResult α) (pB : CharStream → PResult β)
    (value : CharStream) : PResult (α × β) :=
  match pA value with
  | (.error e, v1) => (.error e, v1)
  | (.ok a, v1) =>
    match pB v1 with
    | (.error e, v2) => (.error e, v2)
    | (.ok b, v2) => (.ok (a, b), v2)

/-- Translation of the `(A, B)` span (src/src/parsing.rs lines 465-467):
from the first component's span start to the second component's span
end. -/
def tuple2Span (sA : α → Span) (sB : β → Span) (v : α × β) : Span :=
  ⟨(sA v.1).start, (sB v.2).stop⟩

/-- Translation of the `[T; N]` span (src/src/parsing.rs lines 448-450):
`Span::new(self[0].span().start, self[N - 1].span().end)`; indexing an
empty array would panic, hence the `Option`. -/
def arraySpan (s : α → Span) (l : List α) : Option Span :=
  match l.head?, l.getLast? with
  | some a, some b => some ⟨(s a).start, (s b).stop⟩
  | _, _ => none

/-- Translation of `pub struct List` from src/src/parsing.rs (named
`ListP` because `List` is taken in Lean): the items, each with its
optional trailing separator, and the recorded span. -/
structure ListP (α β : Type) where
  items : List (α × Option β)
  span : Span
deriving DecidableEq

/-- Loop of `List::parse` (src/src/parsing.rs lines 129-149), with
explicit fuel: attempt an item; on item failure return the error when
items have already been collected and otherwise break with the empty
collection; after an item, attempt the separator, pushing
`(item, none)` and breaking when it fails. -/
def listLoop (pI : CharStream → PResult α) (pS : CharStream → PResult β) :
    Nat → List (α × Option β) → CharStream →
    Option (Except ParseError (List (α × Option β)) × CharStream)
  | 0, _, _ => none
  | fuel + 1, items, cs =>
    match pI cs with
    | (.error e, cs1) =>
      if 0 < items.length then some (.error e, cs1) else some (.ok items, cs1)
    | (.ok item, cs1) =>
      match pS cs1 with
      | (.ok sep, cs2) => listLoop pI pS fuel (items.concat (item, some sep)) cs2
      | (.error _, cs2) => some (.ok (items.concat (item, none)), cs2)

/-- Translation of `impl Parse for List` (src/src/parsing.rs lines
125-154): record the start position, run the loop, and on success store
the span from the start position to the position after the loop. -/
def ListP.parse (pI : CharStream → PResult α) (pS : CharStream → PResult β)
    (fuel : Nat) (value : CharStream) :
    Option (Except ParseError (ListP α β) × CharStream) :=
  let start := value.pos
  match listLoop pI pS fuel [] value with
  | none => none
  | some (.error e, cs1) => some (.error e, cs1)
  | some (.ok items, cs1) => some (.ok ⟨items, ⟨start, cs1.pos⟩⟩, cs1)

/-- Loop of `impl Parse for Vec<T>` (src/src/parsing.rs lines 416-420),
with explicit fuel: parse items while they succeed; the loop ends with
the accumulated items, the terminating failure and the stream the
failing call returned. -/
def vecLoop (p : CharStream → PResult α) :
    Nat → List α → CharStream → Option (List α × ParseError × CharStream)
  | 0, _, _ => none
  | fuel + 1, acc, cs =>
    match p cs with
    | (.ok v, cs1) => vecLoop p fuel (acc.concat v) cs1
    | (.error e, cs1) => some (acc, e, cs1)

/-- Translation of `impl Parse for Vec<T>` (src/src/parsing.rs lines
413-427): run the loop; zero collected items yield the vector's own
error at the current position, otherwise the items are returned. -/
def vecParse (p : CharStream → PResult α) (fuel : Nat) (value : CharStream) :
    Option (PResult (List α)) :=
  match vecLoop p fuel [] value with
  | none => none
  | some (vec, _, cs1) =>
    if vec.length = 0 then some (.error (.new "Could not find vector." cs1.pos), cs1)
    else some (.ok vec, cs1)

/-- Translation of the `Vec<T>` span (src/src/parsing.rs lines 429-431):
`Span::new(self.first().unwrap().span().start, self.last().unwrap().span().start)`
(note: the source really reads the last child's span START); unwrapping
an empty vector would panic, hence the `Option`. -/
def vecSpan (s : α → Span) (l : List α) : Option Span :=
  match l.head?, l.getLast? with
  | some a, some b => some ⟨(s a).start, (s b).start⟩
  | _, _ => none

/-- Translation of `pub struct Indent<T>` from src/src/parsing.rs
(`depth: u8` is modelled as `Nat`). -/
structure Indent (α : Type) where
  values : List α
  depth : Nat
deriving DecidableEq

/-- Loop of `Indent::parse` (src/src/parsing.rs lines 384-392), with
explicit fuel.  The state carries the values collected so far, the last
parse attempt's outcome and stream, the last committed `position`, and
the established depth: while the attempt succeeded, update `position`,
push the value, parse the next item on the clone, and break when the
clone's measured indentation differs from the depth. -/
def indentLoop (p : CharStream → PResult α) :
    Nat → List α → Except ParseError α × CharStream → Position → Nat →
    Option (List α × Position)
  | 0, _, _, _, _ => none
  | fuel + 1, values, (item, iv), position, depth =>
    match item with
    | .error _ => some (values, position)
    | .ok v =>
      let position2 := iv.pos
      let values2 := values.concat v
      let nextItem := p iv
      if nextItem.2.indent ≠ depth then some (values2, position2)
      else indentLoop p fuel values2 nextItem position2 depth

/-- Translation of `impl Parse for Indent<T>` (src/src/parsing.rs lines
375-399): clone the cursor into the indentation-tracking mode, parse the
first item, record the depth measured after it, run the loop, and fail
when no values were collected.  The source never writes the tracked
`position` back into the caller's cursor, so the returned stream is the
caller's cursor unchanged, on success as well as on failure. -/
def Indent.parse (p : CharStream → PResult α) (fuel : Nat) (value : CharStream) :
    Option (PResult (Indent α)) :=
  let iv := value.setWhitespace .Indent
  let position := iv.pos
  let firstItem := p iv
  let depth := firstItem.2.indent
  match indentLoop p fuel [] firstItem position depth with
  | none => none
  | some (values, pos2) =>
    if values.length = 0 then
      some (.error (.new "Could not find Indent block." pos2), value)
    else some (.ok ⟨values, depth⟩, value)

/-- Translation of the `Indent<T>` span (src/src/parsing.rs lines
401-403): `Span::new(first.span().start, last.span().end)` through
`unwrap`; unwrapping an empty collection would panic, hence the
`Option`. -/
def Indent.spanOf (s : α → Span) (v : Indent α) : Option Span :=
  match v.values.head?, v.values.getLast? with
  | some a, some b => some ⟨(s a).start, (s b).stop⟩
  | _, _ => none

/-- Total wrapper for `List::<Number, Comma>::parse`: for this item and
separator every loop iteration that continues consumes at least one
character, so fuel one beyond the remaining input always suffices; the
default branch is unreachable and only makes the function total. -/
def listNCtotal (cs : CharStream) : PResult (ListP Number Unit) :=
  match ListP.parse Number.parse Comma.parse (cs.rem.length + 1) cs with
  | some r => r
  | none => (.error (.new "fuel exhausted" cs.pos), cs)

/-- Property assumed of an item parser by the repetition-termination
theorem: a success strictly advances the cursor, preserves the input,
and stays inside it. -/
def ConsumesOnSuccess (p : CharStream → PResult α) : Prop :=
  ∀ cs v cs', p cs = (.ok v, cs') →
    cs.pos.offset < cs'.pos.offset ∧ cs'.input = cs.input ∧
    cs'.pos.offset ≤ cs'.input.length

/-- Written from the claim's words (refinement comparison only, C8): the
claimed token matching first skips leading whitespace, then compares the
exact literal character-by-character against the input. -/
def tokenParseClaim (lit : List Char) (msg : String) (cs : CharStream) : Except ParseError Unit :=
  if cs.skipWs.rem.take lit.length = lit then .ok () else .error (.not_found msg)

/-- Concrete parse result of `"a, b, c"` as `List<Identifier, Comma>`
(used by the C5 witness). -/
def abcList : ListP Identifier Unit :=
  ⟨[(⟨"a", ⟨⟨0, 0, 0⟩, ⟨0, 1, 1⟩⟩⟩, some ()),
    (⟨"b", ⟨⟨0, 2, 2⟩, ⟨0, 4, 4⟩⟩⟩, some ()),
    (⟨"c", ⟨⟨0, 5, 5⟩, ⟨0, 7, 7⟩⟩⟩, none)],
   ⟨⟨0, 0, 0⟩, ⟨0, 7, 7⟩⟩⟩


/-! Helper lemmas about the cursor model. -/

theorem posAdvance_offset (p : Position) (c : Char) : (posAdvance p c).offset = p.offset + 1 := by
  unfold posAdvance
  split <;> rfl

theorem skipWsPos_offset_le : ∀ (l : List Char) (p : Position), p.offset ≤ (skipWsPos l p).offset := by
  intro l
  induction l with
  | nil => intro p; exact Nat.le_refl _
  | cons c rest ih =>
    intro p
    rw [skipWsPos]
    split
    · have h1 := ih (posAdvance p c)
      have h2 := posAdvance_offset p c
      omega
    · exact Nat.le_refl _

theorem scanWhile_offset_le : ∀ (l : List Char) (f : Char → Bool) (p : Position),
    p.offset ≤ (scanWhile f l p).2.offset := by
  intro l
  induction l with
  | nil => intro f p; exact Nat.le_refl _
  | cons c rest ih =>
    intro f p
    rw [scanWhile]
    split
    · show p.offset ≤ (scanWhile f rest (posAdvance p c)).2.offset
      have h1 := ih f (posAdvance p c)
      have h2 := posAdvance_offset p c
      omega
    · exact Nat.le_refl _

theorem scanWhile_all : ∀ (l : List Char) (f : Char → Bool) (p : Position),
    (∀ c ∈ l, f c = true) →
    (scanWhile f l p).1 = l ∧ (scanWhile f l p).2.offset = p.offset + l.length := by
  intro l
  induction l with
  | nil => intro f p _; exact ⟨rfl, rfl⟩
  | cons c rest ih =>
    intro f p h
    have hc : f c = true := h c (List.mem_cons_self c rest)
    obtain ⟨ih1, ih2⟩ := ih f (posAdvance p c) (fun x hx => h x (List.mem_cons_of_mem c hx))
    rw [scanWhile, if_pos hc]
    constructor
    · show c :: (scanWhile f rest (posAdvance p c)).1 = c :: rest
      rw [ih1]
    · show (scanWhile f rest (posAdvance p c)).2.offset = p.offset + (c :: rest).length
      rw [ih2, posAdvance_offset, List.length_cons]
      omega

theorem rawNext_some (cs : CharStream) (c : Char) (nv : CharStream)
    (h : cs.rawNext = (some c, nv)) :
    nv.pos.offset = cs.pos.offset + 1 ∧ nv.input = cs.input := by
  unfold CharStream.rawNext at h
  split at h
  · exact absurd h (by simp)
  · simp only [Prod.mk.injEq, Option.some.injEq] at h
    obtain ⟨_, h2⟩ := h
    subst h2
    exact ⟨posAdvance_offset _ _, rfl⟩

theorem next_some (cs : CharStream) (c : Char) (nv : CharStream)
    (h : cs.next = (some c, nv)) :
    cs.pos.offset < nv.pos.offset ∧ nv.input = cs.input := by
  unfold CharStream.next at h
  split at h
  · obtain ⟨h1, h2⟩ := rawNext_some _ _ _ h
    exact ⟨by omega, h2⟩
  · obtain ⟨h1, h2⟩ := rawNext_some _ _ _ h
    have h3 := skipWsPos_offset_le cs.rem cs.pos
    have h4 : (CharStream.skipWs cs).pos.offset = (skipWsPos cs.rem cs.pos).offset := rfl
    have h5 : (CharStream.skipWs cs).input = cs.input := rfl
    rw [h5] at h2
    exact ⟨by omega, h2⟩

theorem number_consumes : ConsumesOnSuccess Number.parse := by
  intro cs v cs' h
  unfold Number.parse at h
  split at h
  next chr nv heq =>
    split at h
    · dsimp only at h
      split at h
      next v2 heqg =>
        simp only [Prod.mk.injEq, Except.ok.injEq] at h
        obtain ⟨_, hcs⟩ := h
        subst hcs
        unfold CharStream.goto at heqg
        split at heqg
        next hle =>
          simp only [Except.ok.injEq] at heqg
          subst heqg
          obtain ⟨hn1, hn2⟩ := next_some _ _ _ heq
          have hs := scanWhile_offset_le (CharStream.rem (nv.setWhitespace .KeepAll)) Char.isDigit nv.pos
          refine ⟨?_, rfl, ?_⟩ <;> dsimp only <;> omega
        next => exact absurd heqg (by simp)
      next => exact absurd h (by simp)
    · exact absurd h (by simp)
  next nv heq => exact absurd h (by simp)

theorem vecLoop_isSome (p : CharStream → PResult α) (hp : ConsumesOnSuccess p) :
    ∀ (fuel : Nat) (cs : CharStream) (acc : List α),
      cs.pos.offset ≤ cs.input.length →
      cs.input.length < cs.pos.offset + fuel →
      (vecLoop p fuel acc cs).isSome = true := by
  intro fuel
  induction fuel with
  | zero => intro cs acc h1 h2; omega
  | succ n ih =>
    intro cs acc h1 h2
    rw [vecLoop]
    split
    next v cs1 heq =>
      obtain ⟨hlt, hinp, hbound⟩ := hp cs v cs1 heq
      exact ih cs1 (acc.concat v) hbound (by rw [hinp]; omega)
    next => rfl

theorem vecLoop_stuck (p : CharStream → PResult α) (cs : CharStream) (v : α)
    (hp : p cs = (.ok v, cs)) :
    ∀ (fuel : Nat) (acc : List α), vecLoop p fuel acc cs = none := by
  intro fuel
  induction fuel with
  | zero => intro acc; rfl
  | succ n ih =>
    intro acc
    rw [vecLoop, hp]
    exact ih (acc.concat v)

theorem tokenLoop_mtch : ∀ (rem : List Char) (len : Nat) (mtch : List Char) (p : Position),
    mtch.length ≤ len →
    (tokenLoop len mtch rem p).1 =
      mtch ++ (rem.filter (fun c => !c.isWhitespace)).take (len - mtch.length) := by
  intro rem
  induction rem with
  | nil => intro len mtch p _; simp [tokenLoop]
  | cons c rest ih =>
    intro len mtch p h
    rw [tokenLoop]
    by_cases hlen : len ≤ mtch.length
    · have heq : mtch.length = len := Nat.le_antisymm h hlen
      rw [if_pos hlen]
      simp [heq]
    · rw [if_neg hlen]
      by_cases hws : c.isWhitespace
      · rw [if_pos hws, ih len mtch (posAdvance p c) h]
        have : (List.filter (fun c => !c.isWhitespace) (c :: rest)) =
            List.filter (fun c => !c.isWhitespace) rest := by
          simp [List.filter_cons, hws]
        rw [this]
      · rw [if_neg hws, ih len (mtch.concat c) (posAdvance p c)
            (by rw [List.length_concat]; omega)]
        have hf : (List.filter (fun c => !c.isWhitespace) (c :: rest)) =
            c :: List.filter (fun c => !c.isWhitespace) rest := by
          simp [List.filter_cons, hws]
        rw [hf, List.concat_eq_append, List.length_append]
        have hsub : len - mtch.length = (len - (mtch.length + 1)) + 1 := by omega
        rw [hsub, List.take_succ_cons]
        simp

theorem listLoop_error (pI : CharStream → PResult α) (pS : CharStream → PResult β) :
    ∀ (fuel : Nat) (acc : List (α × Option β)) (cs : CharStream) (e : ParseError) (cs' : CharStream),
      listLoop pI pS fuel acc cs = some (.error e, cs') →
      (∃ csa, pI csa = (.error e, cs')) ∧
      (acc = [] → ∃ csb v csc, pI csb = (.ok v, csc)) := by
  intro fuel
  induction fuel with
  | zero => intro acc cs e cs' h; exact absurd h (by simp [listLoop])
  | succ n ih =>
    intro acc cs e cs' h
    rw [listLoop] at h
    split at h
    next e1 cs1 heqI =>
      split at h
      next hpos =>
        simp only [Option.some.injEq, Prod.mk.injEq, Except.error.injEq] at h
        obtain ⟨he, hcs⟩ := h
        subst he
        subst hcs
        refine ⟨⟨cs, heqI⟩, fun hacc => ?_⟩
        rw [hacc] at hpos
        simp at hpos
      next hpos => exact absurd h (by simp)
    next item cs1 heqI =>
      split at h
      next sep cs2 heqS =>
        obtain ⟨h1, _⟩ := ih _ _ _ _ h
        exact ⟨h1, fun _ => ⟨cs, item, cs1, heqI⟩⟩
      next cs2 heqS => exact absurd h (by simp)

theorem listLoop_separators (pI : CharStream → PResult α) (pS : CharStream → PResult β) :
    ∀ (fuel : Nat) (acc : List (α × Option β)) (cs : CharStream)
      (items : List (α × Option β)) (cs' : CharStream),
      acc.all (fun x => x.2.isSome) = true →
      listLoop pI pS fuel acc cs = some (.ok items, cs') →
      items.dropLast.all (fun x => x.2.isSome) = true := by
  intro fuel
  induction fuel with
  | zero => intro acc cs items cs' _ h; exact absurd h (by simp [listLoop])
  | succ n ih =>
    intro acc cs items cs' hacc h
    rw [listLoop] at h
    split at h
    next e1 cs1 heqI =>
      split at h
      next hpos => exact absurd h (by simp)
      next hpos =>
        simp only [Option.some.injEq, Prod.mk.injEq, Except.ok.injEq] at h
        obtain ⟨hi, _⟩ := h
        subst hi
        have : acc = [] := by
          cases acc with
          | nil => rfl
          | cons a t => simp at hpos
        rw [this]
        rfl
    next item cs1 heqI =>
      split at h
      next sep cs2 heqS =>
        refine ih _ _ _ _ ?_ h
        rw [List.concat_eq_append, List.all_append, hacc]
        rfl
      next cs2 heqS =>
        simp only [Option.some.injEq, Prod.mk.injEq, Except.ok.injEq] at h
        obtain ⟨hi, _⟩ := h
        subst hi
        rw [List.concat_eq_append, List.dropLast_concat]
        exact hacc

theorem stringvalue_noquote (cs cs1 : CharStream)
    (hL : LeftQuote.parse cs = (.ok (), cs1))
    (hwf : cs1.pos.offset ≤ cs1.input.length)
    (hq : '\"' ∉ cs1.rem) :
    (StringValue.parse cs).1 =
      .error (ParseError.not_found "could not parse right side of: '\"\"'.") := by
  unfold StringValue.parse
  rw [hL]
  dsimp only
  have hrem : (cs1.setWhitespace .KeepAll).rem = cs1.rem := rfl
  have hall : ∀ c ∈ (cs1.setWhitespace .KeepAll).rem, (c != '\"') = true := by
    rw [hrem]
    intro c hc
    exact bne_iff_ne.mpr (fun hcq => hq (hcq ▸ hc))
  obtain ⟨hs1, hs2⟩ := scanWhile_all _ _ cs1.pos hall
  have hlen : (cs1.setWhitespace .KeepAll).rem.length = cs1.input.length - cs1.pos.offset := by
    rw [hrem]
    exact List.length_drop _ _
  have hoff : (scanWhile (fun c => c != '\"') (cs1.setWhitespace .KeepAll).rem cs1.pos).2.offset
      = cs1.input.length := by omega
  have hgoto : cs1.goto (scanWhile (fun c => c != '\"') (cs1.setWhitespace .KeepAll).rem cs1.pos).2
      = .ok { cs1 with pos := (scanWhile (fun c => c != '\"') (cs1.setWhitespace .KeepAll).rem cs1.pos).2 } := by
    unfold CharStream.goto
    rw [if_pos (by omega)]
  rw [hgoto]
  have hrem2 : ({ cs1 with pos := (scanWhile (fun c => c != '\"') (cs1.setWhitespace .KeepAll).rem cs1.pos).2 } : CharStream).rem = [] := by
    show cs1.input.drop (scanWhile (fun c => c != '\"') (cs1.setWhitespace .KeepAll).rem cs1.pos).2.offset = []
    exact List.drop_eq_nil_of_le (by omega)
  dsimp only
  unfold RightQuote.parse delimTokenParse
  rw [hrem2, delimLoop]
  rfl

/-- C1: refuted at a concrete input.  `Indent::parse` parses `"1"`
successfully (consuming the digit on its internal clone) but returns the
caller's cursor unchanged at offset 0, while the result's span ends at
offset 1 — so the cursor has not been advanced past the consumed input
and the span's end differs from the cursor position after the call. -/
theorem indent_parse_leaves_cursor_and_span_behind :
  Indent.parse Number.parse 4 (mkStream "1") =
    some (.ok ⟨[⟨"1", ⟨⟨0, 0, 0⟩, ⟨0, 1, 1⟩⟩⟩], 0⟩, mkStream "1")
  ∧ (⟨0, 1, 1⟩ : Position) ≠ (mkStream "1").pos :=
  ⟨rfl, by decide⟩

/-- C2 counterexample: on `"x"`, `Vec::<Number>::parse` discards the
inner failure's message "Did not find number" and returns its own
"Could not find vector." — the inner message is not forwarded
unchanged. -/
theorem vec_error_replaces_inner_message :
  vecParse Number.parse 2 (mkStream "x") =
    some (.error (.new "Could not find vector." ⟨0, 0, 0⟩), mkStream "x")
  ∧ (Number.parse (mkStream "x")).1 = .error (.new "Did not find number" ⟨0, 1, 1⟩)
  ∧ ("Could not find vector." : String) ≠ "Did not find number" :=
  ⟨rfl, rfl, by decide⟩

/-- C2 amended: the failure type has exactly one kind (`ParseError`,
fully determined by its message and position), and the sequencing
combinators (tuples, Group) forward an inner failure completely
unchanged; `Vec` and `Indent` instead substitute their own zero-item
message. -/
theorem parse_error_single_kind_and_combinators_forward :
  (∀ e1 e2 : ParseError, e1.cause = e2.cause → e1.position = e2.position → e1 = e2)
  ∧ (∀ (α β : Type) (pA : CharStream → PResult α) (pB : CharStream → PResult β)
       (cs cs1 : CharStream) (e : ParseError),
       pA cs = (.error e, cs1) → tuple2Parse pA pB cs = (.error e, cs1))
  ∧ (∀ (α β : Type) (pA : CharStream → PResult α) (pB : CharStream → PResult β)
       (cs cs1 cs2 : CharStream) (a : α) (e : ParseError),
       pA cs = (.ok a, cs1) → pB cs1 = (.error e, cs2) →
       tuple2Parse pA pB cs = (.error e, cs2))
  ∧ (∀ (σ ε δ ι : Type) (mk : σ → ε → δ) (pS : CharStream → PResult σ)
       (pI : CharStream → PResult ι) (pE : CharStream → PResult ε)
       (cs cs1 cs2 : CharStream) (s : σ) (e : ParseError),
       pS cs = (.ok s, cs1) → pI cs1 = (.error e, cs2) →
       groupParse mk pS pI pE cs = (.error e, cs2)) := by
  refine ⟨?_, ?_, ?_, ?_⟩
  · intro e1 e2 h1 h2
    cases e1
    cases e2
    simp_all
  · intro α β pA pB cs cs1 e h
    unfold tuple2Parse
    rw [h]
  · intro α β pA pB cs cs1 cs2 a e h1 h2
    unfold tuple2Parse
    rw [h1]
    dsimp only
    rw [h2]
  · intro σ ε δ ι mk pS pI pE cs cs1 cs2 s e h1 h2
    unfold groupParse
    rw [h1]
    dsimp only
    rw [h2]

/-- C2 witness: `Group<Paren, Number>` on `"(x)"` — the opening paren
succeeds, the number fails, and the group returns exactly that inner
failure. -/
theorem parse_error_forwarding_witness :
  groupParse (fun a b => (a, b)) LeftParen.parse Number.parse RightParen.parse (mkStream "(x)") =
    (.error (.new "Did not find number" ⟨0, 2, 2⟩), { mkStream "(x)" with pos := ⟨0, 1, 1⟩ }) :=
  parse_error_single_kind_and_combinators_forward.2.2.2 Unit Unit (Unit × Unit) Number
    (fun a b => (a, b)) LeftParen.parse Number.parse RightParen.parse
    (mkStream "(x)") { mkStream "(x)" with pos := ⟨0, 1, 1⟩ }
    { mkStream "(x)" with pos := ⟨0, 1, 1⟩ } ()
    (.new "Did not find number" ⟨0, 2, 2⟩) rfl rfl

/-- C3 counterexample: `Vec<List<Number, Comma>>::parse` on input `"x"`
does not terminate: the inner list succeeds consuming nothing, so the
repetition loop runs out of any amount of fuel. -/
theorem vec_of_list_parse_never_terminates :
  ¬ ∃ fuel : Nat, (vecParse listNCtotal fuel (mkStream "x")).isSome = true := by
  rintro ⟨fuel, hfuel⟩
  have hstuck : listNCtotal (mkStream "x") =
      (.ok ⟨[], ⟨⟨0, 0, 0⟩, ⟨0, 0, 0⟩⟩⟩, mkStream "x") := rfl
  have hnone := vecLoop_stuck listNCtotal (mkStream "x") _ hstuck fuel []
  unfold vecParse at hfuel
  rw [hnone] at hfuel
  simp at hfuel

/-- C3 amended: the repetition terminates whenever the item parser
consumes at least one character on success (as every primitive does):
fuel exceeding the unread input length is never exhausted. -/
theorem vec_parse_terminates_for_consuming_items (α : Type) (p : CharStream → PResult α)
    (fuel : Nat) (cs : CharStream) (hp : ConsumesOnSuccess p)
    (h1 : cs.pos.offset ≤ cs.input.length) (h2 : cs.input.length < cs.pos.offset + fuel) :
    (vecParse p fuel cs).isSome = true := by
  have hsome := vecLoop_isSome p hp fuel cs [] h1 h2
  unfold vecParse
  split
  next heq => rw [heq] at hsome; simp at hsome
  next vec e cs1 heq => split <;> rfl

/-- C3 witness: `Vec<Number>` over `"12 34"` with fuel 6 (one beyond the
input length) runs to completion. -/
theorem vec_parse_termination_witness :
  (vecParse Number.parse 6 (mkStream "12 34")).isSome = true :=
  vec_parse_terminates_for_consuming_items Number Number.parse 6 (mkStream "12 34")
    number_consumes (by decide) (by decide)

/-- C6: refuted at a concrete input.  `Vec<Number>` parsed from
`"12 34"` has children spanning offsets 0-2 and 2-5, but `Vec::span`
returns `[0, 2]` — its end is the last child's span start, not the last
child's span end `[0, 5]`. -/
theorem vec_span_uses_last_child_start :
  vecParse Number.parse 3 (mkStream "12 34") =
    some (.ok [⟨"12", ⟨⟨0, 0, 0⟩, ⟨0, 2, 2⟩⟩⟩, ⟨"34", ⟨⟨0, 2, 2⟩, ⟨0, 5, 5⟩⟩⟩],
          { mkStream "12 34" with pos := ⟨0, 5, 5⟩ })
  ∧ vecSpan (fun n : Number => n.span)
      [⟨"12", ⟨⟨0, 0, 0⟩, ⟨0, 2, 2⟩⟩⟩, ⟨"34", ⟨⟨0, 2, 2⟩, ⟨0, 5, 5⟩⟩⟩] =
      some ⟨⟨0, 0, 0⟩, ⟨0, 2, 2⟩⟩
  ∧ (⟨⟨0, 0, 0⟩, ⟨0, 2, 2⟩⟩ : Span) ≠ ⟨⟨0, 0, 0⟩, ⟨0, 5, 5⟩⟩ :=
  ⟨rfl, rfl, by decide⟩

/-- C7 counterexample: the failure returned for the unterminated string
`"\"unterminated"` is built by the `not_found` constructor — the same
constructor every soft token mismatch uses (second conjunct) — and the
engine's failure type carries no kind that could mark it as a hard
error. -/
theorem unterminated_string_error_is_not_found_error :
  (StringValue.parse (mkStream "\"unterminated")).1 =
    .error (ParseError.not_found "could not parse right side of: '\"\"'.")
  ∧ (Comma.parse (mkStream "z")).1 =
    .error (ParseError.not_found "Could not find token ','.") :=
  ⟨rfl, rfl⟩

/-- C8 counterexample: the literal `==` is matched by the input `"= ="`
(the source loop skips whitespace between the literal's characters),
while the claimed skip-then-compare-exactly matching rejects it. -/
theorem token_parse_accepts_whitespace_inside_literal :
  (EqualEqual.parse (mkStream "= =")).1 = .ok ()
  ∧ tokenParseClaim ['=', '='] "Could not find token '=='." (mkStream "= =") =
      .error (ParseError.not_found "Could not find token '=='.") :=
  ⟨rfl, rfl⟩

/-- C8 amended: a fixed literal token parse succeeds exactly when the
first `lit.length` non-whitespace characters of the remaining input
equal the literal (whitespace is skipped wherever it occurs during
matching), and otherwise fails with the message-only `not_found`
error, which records no position. -/
theorem token_parse_characterization (lit : List Char) (msg : String) (cs : CharStream) :
    (tokenParse lit msg cs).1 =
      (if (cs.rem.filter (fun c => !c.isWhitespace)).take lit.length = lit
       then .ok () else .error (ParseError.not_found msg)) := by
  unfold tokenParse
  dsimp only
  rw [tokenLoop_mtch cs.rem lit.length [] cs.pos (by simp)]
  simp only [List.nil_append, Nat.sub_zero]
  split <;> simp_all

/-- C4: `List::parse` never itself fails when zero items are found (an
immediately failing item yields a successful empty list), and when it
does fail, at least one item had been collected, the returned error is
verbatim the error of an item-parse call, and some item parse had
succeeded. -/
theorem list_parse_zero_items_and_error_propagation :
  (∀ (α β : Type) (pI : CharStream → PResult α) (pS : CharStream → PResult β)
     (fuel : Nat) (cs cs1 : CharStream) (e0 : ParseError),
     pI cs = (.error e0, cs1) →
     ListP.parse pI pS (fuel + 1) cs = some (.ok ⟨[], ⟨cs.pos, cs1.pos⟩⟩, cs1))
  ∧ (∀ (α β : Type) (pI : CharStream → PResult α) (pS : CharStream → PResult β)
     (fuel : Nat) (cs cs' : CharStream) (e : ParseError),
     ListP.parse pI pS fuel cs = some (.error e, cs') →
     (∃ csa, pI csa = (.error e, cs')) ∧ (∃ csb v csc, pI csb = (.ok v, csc))) := by
  constructor
  · intro α β pI pS fuel cs cs1 e0 h
    unfold ListP.parse
    rw [listLoop, h]
    simp
  · intro α β pI pS fuel cs cs' e h
    unfold ListP.parse at h
    split at h
    next heq => exact absurd h (by simp)
    next e1 cs1 heq =>
      simp only [Option.some.injEq, Prod.mk.injEq, Except.error.injEq] at h
      obtain ⟨he, hcs⟩ := h
      subst he
      subst hcs
      obtain ⟨ha, hb⟩ := listLoop_error pI pS fuel [] cs e1 cs1 heq
      exact ⟨ha, hb rfl⟩
    next items cs1 heq => exact absurd h (by simp)

/-- C4 witness: on `"x"` the list is an empty success; on `"1,x"` one
item and a separator were consumed, then the item parse failed and the
list returned that failure verbatim. -/
theorem list_parse_failure_behavior_witness :
  ListP.parse Number.parse Comma.parse 2 (mkStream "x") =
    some (.ok ⟨[], ⟨⟨0, 0, 0⟩, ⟨0, 0, 0⟩⟩⟩, mkStream "x")
  ∧ ((∃ csa, Number.parse csa = (.error (.new "Did not find number" ⟨0, 3, 3⟩),
        { mkStream "1,x" with pos := ⟨0, 2, 2⟩ }))
     ∧ (∃ csb v csc, Number.parse csb = (.ok v, csc))) :=
  ⟨list_parse_zero_items_and_error_propagation.1 Number Unit Number.parse Comma.parse 1
      (mkStream "x") (mkStream "x") (.new "Did not find number" ⟨0, 1, 1⟩) rfl,
   list_parse_zero_items_and_error_propagation.2 Number Unit Number.parse Comma.parse 3
      (mkStream "1,x") { mkStream "1,x" with pos := ⟨0, 2, 2⟩ }
      (.new "Did not find number" ⟨0, 3, 3⟩) rfl⟩

/-- C5: in every successfully parsed list, every item except the last
carries a recorded separator (only the final item may lack one). -/
theorem list_non_final_items_carry_separators (α β : Type)
    (pI : CharStream → PResult α) (pS : CharStream → PResult β)
    (fuel : Nat) (cs cs' : CharStream) (r : ListP α β)
    (h : ListP.parse pI pS fuel cs = some (.ok r, cs')) :
    r.items.dropLast.all (fun x => x.2.isSome) = true := by
  unfold ListP.parse at h
  split at h
  next heq => exact absurd h (by simp)
  next e1 cs1 heq => exact absurd h (by simp)
  next items cs1 heq =>
    simp only [Option.some.injEq, Prod.mk.injEq, Except.ok.injEq] at h
    obtain ⟨hr, _⟩ := h
    subst hr
    exact listLoop_separators pI pS fuel [] cs items cs1 rfl heq

/-- C5 witness: `"a, b, c"` as `List<Identifier, Comma>` yields exactly
three items whose separator pattern is present, present, absent. -/
theorem list_abc_separator_pattern_witness :
  ListP.parse Identifier.parse Comma.parse 5 (mkStream "a, b, c") =
    some (.ok abcList, { mkStream "a, b, c" with pos := ⟨0, 7, 7⟩ })
  ∧ abcList.items.length = 3
  ∧ abcList.items.map (fun x => x.2.isSome) = [true, true, false]
  ∧ abcList.items.dropLast.all (fun x => x.2.isSome) = true :=
  ⟨rfl, rfl, rfl,
   list_non_final_items_carry_separators Identifier Unit Identifier.parse Comma.parse 5
     (mkStream "a, b, c") { mkStream "a, b, c" with pos := ⟨0, 7, 7⟩ } abcList rfl⟩

/-- C7 amended: whenever the opening quote matched and no further quote
occurs in the remaining input, `StringValue::parse` fails with the
closing-quote token's `not_found` error (the engine's only failure
kind). -/
theorem unterminated_string_fails_with_right_quote_not_found (cs cs1 : CharStream)
    (hL : LeftQuote.parse cs = (.ok (), cs1))
    (hwf : cs1.pos.offset ≤ cs1.input.length)
    (hq : '\"' ∉ cs1.rem) :
    (StringValue.parse cs).1 =
      .error (ParseError.not_found "could not parse right side of: '\"\"'.") :=
  stringvalue_noquote cs cs1 hL hwf hq

/-- C7 witness: the concrete unterminated input. -/
theorem unterminated_string_witness :
  (StringValue.parse (mkStream "\"unterminated")).1 =
    .error (ParseError.not_found "could not parse right side of: '\"\"'.") :=
  unterminated_string_fails_with_right_quote_not_found (mkStream "\"unterminated")
    { mkStream "\"unterminated" with pos := ⟨0, 1, 1⟩ } rfl (by decide) (by decide)

/-- C9: an indent block fails when the very first item is unparseable,
never advances the caller's cursor past what it consumed, and on the
two-lines-at-depth-1-then-depth-0 input it records depth 1, keeps the
two depth-1 items and stops before including the depth-0 item. -/
theorem indent_block_depth_gating :
  (∀ (α : Type) (p : CharStream → PResult α) (fuel : Nat) (cs : CharStream)
     (e : ParseError) (iv2 : CharStream),
     p (cs.setWhitespace .Indent) = (.error e, iv2) →
     Indent.parse p (fuel + 1) cs =
       some (.error (.new "Could not find Indent block." cs.pos), cs))
  ∧ (∀ (α : Type) (p : CharStream → PResult α) (fuel : Nat) (cs : CharStream)
     (out : PResult (Indent α)), Indent.parse p fuel cs = some out → out.2 = cs)
  ∧ Indent.parse Number.parse 5 (mkStream "\t1\n\t2\n3") =
      some (.ok ⟨[⟨"1", ⟨⟨0, 0, 0⟩, ⟨0, 2, 2⟩⟩⟩, ⟨"2", ⟨⟨0, 2, 2⟩, ⟨1, 2, 5⟩⟩⟩], 1⟩,
            mkStream "\t1\n\t2\n3") := by
  refine ⟨?_, ?_, rfl⟩
  · intro α p fuel cs e iv2 h
    unfold Indent.parse
    dsimp only
    rw [h]
    rw [indentLoop]
    simp [CharStream.setWhitespace]
  · intro α p fuel cs out h
    unfold Indent.parse at h
    dsimp only at h
    split at h
    next heq => exact absurd h (by simp)
    next values pos2 heq =>
      split at h <;>
        (simp only [Option.some.injEq] at h; rw [← h])

/-- C9 witness: instantiation of the failure case at `"x"` and of the
cursor-preservation case at the depth-1/depth-0 input. -/
theorem indent_block_witness :
  Indent.parse Number.parse 4 (mkStream "x") =
    some (.error (.new "Could not find Indent block." ⟨0, 0, 0⟩), mkStream "x")
  ∧ ((.ok (⟨[⟨"1", ⟨⟨0, 0, 0⟩, ⟨0, 2, 2⟩⟩⟩, ⟨"2", ⟨⟨0, 2, 2⟩, ⟨1, 2, 5⟩⟩⟩], 1⟩ : Indent Number),
       mkStream "\t1\n\t2\n3") : PResult (Indent Number)).2 = mkStream "\t1\n\t2\n3" :=
  ⟨indent_block_depth_gating.1 Number Number.parse 3 (mkStream "x")
     (.new "Did not find number" ⟨0, 1, 1⟩) ((mkStream "x").setWhitespace .Indent) rfl,
   indent_block_depth_gating.2.1 Number Number.parse 5 (mkStream "\t1\n\t2\n3")
     (.ok ⟨[⟨"1", ⟨⟨0, 0, 0⟩, ⟨0, 2, 2⟩⟩⟩, ⟨"2", ⟨⟨0, 2, 2⟩, ⟨1, 2, 5⟩⟩⟩], 1⟩,
      mkStream "\t1\n\t2\n3") rfl⟩

/-- C10: a successful repetition or indent-block parse always returns a
non-empty collection (the zero-item case is an error instead), so the
first/last lookups inside their span computations always find an
element. -/
theorem successful_vec_and_indent_values_nonempty :
  (∀ (α : Type) (s : α → Span) (p : CharStream → PResult α) (fuel : Nat)
     (cs cs' : CharStream) (v : List α),
     vecParse p fuel cs = some (.ok v, cs') → v ≠ [] ∧ (vecSpan s v).isSome = true)
  ∧ (∀ (α : Type) (s : α → Span) (p : CharStream → PResult α) (fuel : Nat)
     (cs cs' : CharStream) (v : Indent α),
     Indent.parse p fuel cs = some (.ok v, cs') →
     v.values ≠ [] ∧ (Indent.spanOf s v).isSome = true) := by
  constructor
  · intro α s p fuel cs cs' v h
    unfold vecParse at h
    split at h
    next heq => exact absurd h (by simp)
    next vec e cs1 heq =>
      split at h
      next hlen => exact absurd h (by simp)
      next hlen =>
        simp only [Option.some.injEq, Prod.mk.injEq, Except.ok.injEq] at h
        obtain ⟨hv, _⟩ := h
        rw [← hv]
        have hne : vec ≠ [] := by
          intro hnil
          rw [hnil] at hlen
          simp at hlen
        refine ⟨hne, ?_⟩
        unfold vecSpan
        cases hhead : vec.head? with
        | none => exact absurd (List.head?_isSome.mpr hne) (by rw [hhead]; simp)
        | some a =>
          cases hlast : vec.getLast? with
          | none => exact absurd (List.getLast?_isSome.mpr hne) (by rw [hlast]; simp)
          | some b => rfl
  · intro α s p fuel cs cs' v h
    unfold Indent.parse at h
    dsimp only at h
    split at h
    next heq => exact absurd h (by simp)
    next values pos2 heq =>
      split at h
      next hlen => exact absurd h (by simp)
      next hlen =>
        simp only [Option.some.injEq, Prod.mk.injEq, Except.ok.injEq] at h
        obtain ⟨hv, _⟩ := h
        rw [← hv]
        have hne : values ≠ [] := by
          intro hnil
          rw [hnil] at hlen
          simp at hlen
        refine ⟨hne, ?_⟩
        unfold Indent.spanOf
        dsimp only
        cases hhead : values.head? with
        | none => exact absurd (List.head?_isSome.mpr hne) (by rw [hhead]; simp)
        | some a =>
          cases hlast : values.getLast? with
          | none => exact absurd (List.getLast?_isSome.mpr hne) (by rw [hlast]; simp)
          | some b => rfl

/-- C10 witness: the parsed `Vec<Number>` from `"12 34"` and the parsed
`Indent<Number>` block are non-empty and their spans are defined. -/
theorem vec_indent_nonempty_witness :
  (([⟨"12", ⟨⟨0, 0, 0⟩, ⟨0, 2, 2⟩⟩⟩, ⟨"34", ⟨⟨0, 2, 2⟩, ⟨0, 5, 5⟩⟩⟩] : List Number) ≠ []
   ∧ (vecSpan (fun n : Number => n.span)
       [⟨"12", ⟨⟨0, 0, 0⟩, ⟨0, 2, 2⟩⟩⟩, ⟨"34", ⟨⟨0, 2, 2⟩, ⟨0, 5, 5⟩⟩⟩]).isSome = true)
  ∧ ((⟨[⟨"1", ⟨⟨0, 0, 0⟩, ⟨0, 2, 2⟩⟩⟩, ⟨"2", ⟨⟨0, 2, 2⟩, ⟨1, 2, 5⟩⟩⟩], 1⟩ : Indent Number).values ≠ []
   ∧ (Indent.spanOf (fun n : Number => n.span)
       (⟨[⟨"1", ⟨⟨0, 0, 0⟩, ⟨0, 2, 2⟩⟩⟩, ⟨"2", ⟨⟨0, 2, 2⟩, ⟨1, 2, 5⟩⟩⟩], 1⟩ : Indent Number)).isSome = true) :=
  ⟨successful_vec_and_indent_values_nonempty.1 Number (fun n => n.span) Number.parse 3
     (mkStream "12 34") { mkStream "12 34" with pos := ⟨0, 5, 5⟩ }
     [⟨"12", ⟨⟨0, 0, 0⟩, ⟨0, 2, 2⟩⟩⟩, ⟨"34", ⟨⟨0, 2, 2⟩, ⟨0, 5, 5⟩⟩⟩] rfl,
   successful_vec_and_indent_values_nonempty.2 Number (fun n => n.span) Number.parse 5
     (mkStream "\t1\n\t2\n3") (mkStream "\t1\n\t2\n3")
     ⟨[⟨"1", ⟨⟨0, 0, 0⟩, ⟨0, 2, 2⟩⟩⟩, ⟨"2", ⟨⟨0, 2, 2⟩, ⟨1, 2, 5⟩⟩⟩], 1⟩ rfl⟩
